import Mathlib

/-!
A shallow embedding of the coin life-cycle and collection logic of the
AR-Treasure-Hunt minigame variants, together with proofs of the
behavioural properties stated in the specification.

Three variants are embedded:

* `Multi` - the multi-token variant (second document of `src/index.js`):
  global `score` / `gameOver` / `activeTokens`, `collectSpecificToken`,
  `createToken`, and the per-frame `CoinCollectSystem.update` with
  collection radius 1.5 and win threshold 5.  Deferred work (the
  `setTimeout`-scheduled token destruction and replacement spawn) is made
  explicit in the state as pending-task queues; an operation type `MOp`
  covers a direct collect, a per-frame system tick, a deferred replacement
  spawn firing, and a deferred destroy firing.

* `Single` - the proximity single-token variant (`part_000`):
  `collectToken`, `TokenCollectSystem.update`, radius 0.4, threshold 10.
  In this variant the collected token is destroyed synchronously inside
  `collectToken` (`tokenEntity.destroy()` is a direct call), so the state
  has no pending-destroy queue: `destroyed` grows during the collect step
  itself.

* `ClickVar` - the pointer-event single-token variant (first document of
  `src/index.js`): `handleTokenCollected` / `onTokenClicked`, with the
  `removeEventListener` latch (modelled by the `listeners` field, since a
  pointer event can only dispatch to a model that still carries the
  listener) and the deferred (`setTimeout 0`) destroy.

`Quest.isMetaQuest1` embeds the user-agent heuristic shared by all
variants; the JavaScript regular expressions are modelled as
case-insensitive substring tests, with the `\s?` gap expanded into the
finite set of characters the ECMAScript `\s` escape matches (ASCII
whitespace, the line terminators, and the Unicode space separators).

Positions use exact rational coordinates, so the squared-distance
comparisons of the per-frame systems are decidable.
-/

/-- A 3D point with exact rational coordinates. -/
structure Vec3 where
  x : ℚ
  y : ℚ
  z : ℚ
  deriving DecidableEq

/-- Squared Euclidean distance between two points, computed exactly as in
the per-frame systems: componentwise differences, then
`dx*dx + dy*dy + dz*dz`. -/
def distSq (a b : Vec3) : ℚ :=
  (a.x - b.x) * (a.x - b.x) + (a.y - b.y) * (a.y - b.y) + (a.z - b.z) * (a.z - b.z)

/-- Global state of the multi-token variant: `score`, `gameOver`, the
`activeTokens` list (insertion order), plus the parts of the host
environment the logic observes - which entities have been destroyed,
which zero-delay destroy tasks and delayed replacement-spawn tasks are
pending, and a counter supplying fresh entity identities. -/
structure Multi.MState where
  score : Nat
  gameOver : Bool
  activeTokens : List Nat
  destroyed : List Nat
  pendingDestroy : List Nat
  pendingSpawn : Nat
  nextId : Nat
  deriving DecidableEq

/-- The win threshold of the multi-token variant (`score >= 5`). -/
def Multi.winThreshold : Nat := 5

/-- The collection radius of `CoinCollectSystem.update` (`radius = 1.5`). -/
def Multi.radius : ℚ := 3 / 2

/-- `radiusSq = radius * radius`, as computed in the update loop. -/
def Multi.radiusSq : ℚ := Multi.radius * Multi.radius

/-- The position assigned in `createToken`: `x = (rand - 0.5) * 10`,
`y = 0.5`, `z = (rand - 0.5) * 10`, for random draws `r1`, `r2`. -/
def Multi.tokenPosition (r1 r2 : ℚ) : Vec3 :=
  ⟨(r1 - 1/2) * 10, 1/2, (r2 - 1/2) * 10⟩

/-- The state effect of `createToken`: the fresh entity is pushed onto
`activeTokens` and the identity counter advances. -/
def Multi.spawnState (s : Multi.MState) : Multi.MState :=
  { s with activeTokens := s.activeTokens ++ [s.nextId], nextId := s.nextId + 1 }

/-- `createToken` of the multi-token variant: returns the updated state
together with the position assigned to the new token. -/
def Multi.createToken (r1 r2 : ℚ) (s : Multi.MState) : Multi.MState × Vec3 :=
  (Multi.spawnState s, Multi.tokenPosition r1 r2)

/-- `collectSpecificToken` of the multi-token variant: returns unchanged
when the game is over or the entity is destroyed; otherwise splices the
entity out of `activeTokens`, schedules a zero-delay destroy, increments
the score, and either sets `gameOver` at the win threshold or schedules a
delayed replacement spawn. -/
def Multi.collectSpecificToken (e : Nat) (s : Multi.MState) : Multi.MState :=
  if s.gameOver then s
  else if s.destroyed.contains e then s
  else
    let s1 : Multi.MState :=
      { s with
        activeTokens := s.activeTokens.erase e
        pendingDestroy := s.pendingDestroy ++ [e]
        score := s.score + 1 }
    if Multi.winThreshold ≤ s1.score then { s1 with gameOver := true }
    else { s1 with pendingSpawn := s1.pendingSpawn + 1 }

/-- The per-entity test of the `CoinCollectSystem.update` loop: the entity
is skipped when destroyed, and hit when its squared distance to the player
is strictly below `radiusSq`. -/
def Multi.hits (p : Vec3) (pos : Nat → Vec3) (s : Multi.MState) (e : Nat) : Bool :=
  !(s.destroyed.contains e) && decide (distSq (pos e) p < Multi.radiusSq)

/-- The first entity of `activeTokens` (insertion order) hit by the update
loop, if any; the loop breaks at the first hit. -/
def Multi.findTarget (p : Vec3) (pos : Nat → Vec3) (s : Multi.MState) : Option Nat :=
  s.activeTokens.find? (Multi.hits p pos s)

/-- `CoinCollectSystem.update`: no-op when the game is over or no tokens
are live; otherwise collects the first hit token (if any) and stops. The
player position `p` and the world position `pos e` of each entity are
read from the scene, so they are inputs here. -/
def Multi.update (p : Vec3) (pos : Nat → Vec3) (s : Multi.MState) : Multi.MState :=
  if s.gameOver then s
  else if s.activeTokens.isEmpty then s
  else
    match Multi.findTarget p pos s with
    | none => s
    | some e => Multi.collectSpecificToken e s

/-- The operations that can act on the multi-token state: a direct
`collectSpecificToken` call, a per-frame system tick, a scheduled
replacement spawn firing (with its two random draws), and a scheduled
zero-delay destroy firing. -/
inductive Multi.MOp where
  | collect (e : Nat)
  | frame (p : Vec3) (pos : Nat → Vec3)
  | spawnFires (r1 r2 : ℚ)
  | destroyFires

/-- One operation acting on the multi-token state.  A spawn task fires
only if one is pending, and re-checks `gameOver` at fire time (the guard
inside the `setTimeout` callback); a destroy task destroys its entity
unless it already is destroyed. -/
def Multi.step (s : Multi.MState) (op : Multi.MOp) : Multi.MState :=
  match op with
  | Multi.MOp.collect e => Multi.collectSpecificToken e s
  | Multi.MOp.frame p pos => Multi.update p pos s
  | Multi.MOp.spawnFires r1 r2 =>
      if s.pendingSpawn = 0 then s
      else
        let s1 : Multi.MState := { s with pendingSpawn := s.pendingSpawn - 1 }
        if s1.gameOver then s1 else (Multi.createToken r1 r2 s1).1
  | Multi.MOp.destroyFires =>
      match s.pendingDestroy with
      | [] => s
      | e :: rest =>
          { s with
            pendingDestroy := rest
            destroyed := if s.destroyed.contains e then s.destroyed else e :: s.destroyed }

/-- The state before any token exists. -/
def Multi.emptyState : Multi.MState :=
  { score := 0, gameOver := false, activeTokens := [], destroyed := [],
    pendingDestroy := [], pendingSpawn := 0, nextId := 0 }

/-- The initial session state: score 0, game not over, and the one initial
token spawned by the top-level `createToken()` call. -/
def Multi.initState : Multi.MState := Multi.spawnState Multi.emptyState

/-- Run a list of operations from a given state. -/
def Multi.runFrom (s : Multi.MState) (ops : List Multi.MOp) : Multi.MState :=
  ops.foldl Multi.step s

/-- Run a list of operations from the initial session state. -/
def Multi.run (ops : List Multi.MOp) : Multi.MState :=
  Multi.runFrom Multi.initState ops

/-- Whether an operation passes the collection guards in the given state:
a direct collect passes when the game is not over and the entity is not
destroyed; a frame tick collects when the game is not over, a token is
live, and the proximity scan finds a hit.  Spawn and destroy tasks never
collect. -/
def Multi.opCollects (s : Multi.MState) (op : Multi.MOp) : Bool :=
  match op with
  | Multi.MOp.collect e => !s.gameOver && !(s.destroyed.contains e)
  | Multi.MOp.frame p pos =>
      !s.gameOver && !s.activeTokens.isEmpty && (Multi.findTarget p pos s).isSome
  | Multi.MOp.spawnFires _ _ => false
  | Multi.MOp.destroyFires => false

/-- The number of operations of a run that pass the collection guards,
evaluated along the run. -/
def Multi.countFrom : Multi.MState → List Multi.MOp → Nat
  | _, [] => 0
  | s, op :: rest =>
      (if Multi.opCollects s op then 1 else 0) + Multi.countFrom (Multi.step s op) rest

/-- The session invariant of the multi-token variant: the game-over flag
is set exactly when the score has reached the win threshold, and the
score never exceeds the threshold. -/
def Multi.Inv (s : Multi.MState) : Prop :=
  s.gameOver = decide (Multi.winThreshold ≤ s.score) ∧ s.score ≤ Multi.winThreshold

/-- A run reaching score 4 with a live token left: four collected tokens,
each followed by its replacement spawn firing. -/
def Multi.fourCollectTrace : List Multi.MOp :=
  [Multi.MOp.collect 0, Multi.MOp.spawnFires 0 0, Multi.MOp.collect 1,
   Multi.MOp.spawnFires 0 0, Multi.MOp.collect 2, Multi.MOp.spawnFires 0 0,
   Multi.MOp.collect 3, Multi.MOp.spawnFires 0 0]

/-- A run that reaches game over while a replacement-spawn task is still
pending (the duplicate collect of token 0 scheduled an extra spawn). -/
def Multi.gameOverTrace : List Multi.MOp :=
  [Multi.MOp.collect 0, Multi.MOp.collect 0, Multi.MOp.spawnFires 0 0,
   Multi.MOp.collect 1, Multi.MOp.spawnFires 0 0, Multi.MOp.collect 2,
   Multi.MOp.spawnFires 0 0, Multi.MOp.collect 3]

/-- A run after which token 0 has been collected and its deferred destroy
has fired. -/
def Multi.destroyedTrace : List Multi.MOp :=
  [Multi.MOp.collect 0, Multi.MOp.destroyFires]

/-- Global state of the proximity single-token variant: `score`,
`gameOver`, the `tokenEntity` reference (null or an entity identity),
the `tokenExists` flag, plus the destroyed entities, the pending
replacement-spawn tasks, and a fresh-identity counter.  There is no
pending-destroy queue: this variant destroys the token synchronously. -/
structure Single.SState where
  score : Nat
  gameOver : Bool
  tokenEntity : Option Nat
  tokenExists : Bool
  destroyed : List Nat
  pendingSpawn : Nat
  nextId : Nat
  deriving DecidableEq

/-- The win threshold of the single-token variant (`score >= 10`). -/
def Single.winThreshold : Nat := 10

/-- The collection radius of `TokenCollectSystem.update`
(`collectRadius = 0.4`). -/
def Single.collectRadius : ℚ := 2 / 5

/-- The squared collection radius, as compared against in the update. -/
def Single.radiusSq : ℚ := Single.collectRadius * Single.collectRadius

/-- `collectToken` of the single-token variant: returns unchanged when no
token exists, the reference is null, or the game is over; otherwise
clears `tokenExists`, destroys the current token synchronously, nulls the
reference, increments the score, and either sets `gameOver` at the win
threshold or schedules a delayed replacement spawn. -/
def Single.collectToken (s : Single.SState) : Single.SState :=
  if !s.tokenExists || s.tokenEntity.isNone || s.gameOver then s
  else
    match s.tokenEntity with
    | none => s
    | some e =>
        let s1 : Single.SState :=
          { s with
            tokenExists := false
            destroyed := s.destroyed ++ [e]
            tokenEntity := none
            score := s.score + 1 }
        if Single.winThreshold ≤ s1.score then { s1 with gameOver := true }
        else { s1 with pendingSpawn := s1.pendingSpawn + 1 }

/-- `TokenCollectSystem.update`: no-op when no token is live or the game
is over; otherwise collects the token when its squared distance to the
player is strictly below the squared collection radius.  The player and
token positions are read from the scene, so they are inputs here. -/
def Single.update (p tokenPos : Vec3) (s : Single.SState) : Single.SState :=
  if !s.tokenExists || s.tokenEntity.isNone || s.gameOver then s
  else if decide (distSq tokenPos p < Single.radiusSq) then Single.collectToken s
  else s

/-- The operations of the single-token variant: a direct `collectToken`
call, a per-frame system tick, and a scheduled replacement spawn
firing. -/
inductive Single.SOp where
  | collect
  | frame (p tokenPos : Vec3)
  | spawnFires

/-- One operation acting on the single-token state.  A replacement spawn
fires only if pending and re-checks `gameOver` at fire time; when it
spawns, it sets `tokenEntity` and `tokenExists` together. -/
def Single.step (s : Single.SState) (op : Single.SOp) : Single.SState :=
  match op with
  | Single.SOp.collect => Single.collectToken s
  | Single.SOp.frame p tokenPos => Single.update p tokenPos s
  | Single.SOp.spawnFires =>
      if s.pendingSpawn = 0 then s
      else
        let s1 : Single.SState := { s with pendingSpawn := s.pendingSpawn - 1 }
        if s1.gameOver then s1
        else
          { s1 with tokenEntity := some s1.nextId, tokenExists := true,
                    nextId := s1.nextId + 1 }

/-- The initial state of the single-token variant: the initial token has
been spawned and both tracking variables set. -/
def Single.initState : Single.SState :=
  { score := 0, gameOver := false, tokenEntity := some 0, tokenExists := true,
    destroyed := [], pendingSpawn := 0, nextId := 1 }

/-- The single-token tracking invariant: `tokenExists` is true exactly
when `tokenEntity` is non-null. -/
def Single.InvTok (s : Single.SState) : Prop :=
  s.tokenExists = s.tokenEntity.isSome

/-- Global state of the pointer-event single-token variant: as `Single`,
plus the set of models still carrying the `pointerdown` listener and the
pending zero-delay destroy tasks (this variant defers destruction). -/
structure ClickVar.AState where
  score : Nat
  gameOver : Bool
  tokenEntity : Option Nat
  tokenExists : Bool
  listeners : List Nat
  destroyed : List Nat
  pendingDestroy : List Nat
  pendingSpawn : Nat
  nextId : Nat
  deriving DecidableEq

/-- The win threshold of the pointer-event variant (`score >= 10`). -/
def ClickVar.winThreshold : Nat := 10

/-- `createToken` of the pointer-event variant: the fresh entity gets a
`pointerdown` listener and the identity counter advances; the entity is
returned for the caller to store in `tokenEntity`. -/
def ClickVar.createToken (s : ClickVar.AState) : ClickVar.AState × Nat :=
  ({ s with listeners := s.listeners ++ [s.nextId], nextId := s.nextId + 1 }, s.nextId)

/-- `handleTokenCollected`: removes the `pointerdown` listener, schedules
a zero-delay destroy, nulls `tokenEntity` when it is the collected
entity, clears `tokenExists`, increments the score, and either sets
`gameOver` at the win threshold or schedules a delayed replacement
spawn. -/
def ClickVar.handleTokenCollected (e : Nat) (s : ClickVar.AState) : ClickVar.AState :=
  let s1 : ClickVar.AState :=
    { s with
      listeners := s.listeners.erase e
      pendingDestroy := s.pendingDestroy ++ [e]
      tokenEntity := if s.tokenEntity = some e then none else s.tokenEntity
      tokenExists := false
      score := s.score + 1 }
  if ClickVar.winThreshold ≤ s1.score then { s1 with gameOver := true }
  else { s1 with pendingSpawn := s1.pendingSpawn + 1 }

/-- `onTokenClicked`: ignores the event when the game is over or the
clicked entity is destroyed, otherwise delegates to
`handleTokenCollected`. -/
def ClickVar.onTokenClicked (e : Nat) (s : ClickVar.AState) : ClickVar.AState :=
  if s.gameOver then s
  else if s.destroyed.contains e then s
  else ClickVar.handleTokenCollected e s

/-- The operations of the pointer-event variant: a pointer event on an
entity (dispatched only while its listener is attached), a scheduled
replacement spawn firing, and a scheduled zero-delay destroy firing. -/
inductive ClickVar.AOp where
  | click (e : Nat)
  | spawnFires
  | destroyFires

/-- One operation acting on the pointer-event state. -/
def ClickVar.step (s : ClickVar.AState) (op : ClickVar.AOp) : ClickVar.AState :=
  match op with
  | ClickVar.AOp.click e =>
      if s.listeners.contains e then ClickVar.onTokenClicked e s else s
  | ClickVar.AOp.spawnFires =>
      if s.pendingSpawn = 0 then s
      else
        let s1 : ClickVar.AState := { s with pendingSpawn := s.pendingSpawn - 1 }
        if s1.gameOver then s1
        else
          let c := ClickVar.createToken s1
          { c.1 with tokenEntity := some c.2, tokenExists := true }
  | ClickVar.AOp.destroyFires =>
      match s.pendingDestroy with
      | [] => s
      | e :: rest =>
          { s with
            pendingDestroy := rest
            destroyed := if s.destroyed.contains e then s.destroyed else e :: s.destroyed }

/-- The state before any token exists. -/
def ClickVar.emptyState : ClickVar.AState :=
  { score := 0, gameOver := false, tokenEntity := none, tokenExists := false,
    listeners := [], destroyed := [], pendingDestroy := [], pendingSpawn := 0,
    nextId := 0 }

/-- The initial state of the pointer-event variant: the initial token has
been spawned by the top-level `createToken()` call and both tracking
variables set. -/
def ClickVar.initState : ClickVar.AState :=
  { (ClickVar.createToken ClickVar.emptyState).1 with
    tokenEntity := some (ClickVar.createToken ClickVar.emptyState).2
    tokenExists := true }

/-- Run a list of operations from a given state. -/
def ClickVar.runFrom (s : ClickVar.AState) (ops : List ClickVar.AOp) : ClickVar.AState :=
  ops.foldl ClickVar.step s

/-- Run a list of operations from the initial state. -/
def ClickVar.run (ops : List ClickVar.AOp) : ClickVar.AState :=
  ClickVar.runFrom ClickVar.initState ops

/-- The listener list a state should carry, as a function of the current
token reference. -/
def ClickVar.listenersOf : Option Nat → List Nat
  | none => []
  | some e => [e]

/-- The inductive invariant of the pointer-event variant: the tracking
pair agrees, the attached listener is exactly the current token's, at
most one replacement spawn is pending, and one is pending only between a
collection and its replacement (token cleared, game still running). -/
def ClickVar.InvA (s : ClickVar.AState) : Prop :=
  s.tokenExists = s.tokenEntity.isSome ∧
  s.listeners = ClickVar.listenersOf s.tokenEntity ∧
  s.pendingSpawn ≤ 1 ∧
  (s.pendingSpawn = 1 → s.tokenEntity = none ∧ s.gameOver = false)

/-- Whether one character list begins with another. -/
def Quest.startsWith : List Char → List Char → Bool
  | _, [] => true
  | [], _ :: _ => false
  | c :: cs, p :: ps => c == p && Quest.startsWith cs ps

/-- Whether `pat` occurs as a contiguous run inside the second list. -/
def Quest.occursIn (pat : List Char) : List Char → Bool
  | [] => Quest.startsWith [] pat
  | c :: cs => Quest.startsWith (c :: cs) pat || Quest.occursIn pat cs

/-- The characters of a string, lowercased; case-insensitive regex tests
compare these. -/
def Quest.lowerChars (s : String) : List Char :=
  s.data.map Char.toLower

/-- The alternatives of the `hasOculus` regex. -/
def Quest.oculusMarkers : List String := ["Oculus", "Quest", "Meta Quest"]

/-- The literal alternatives of the `isQuest2or3` regex (the gap-free
ones). -/
def Quest.quest23Literals : List String := ["Quest2", "Quest3", "MetaQuest2", "Meta Quest 2"]

/-- The stem of the gapped `isQuest2or3` alternatives. -/
def Quest.questWord : String := "Quest"

/-- The characters the ECMAScript regex `\s` escape matches: WhiteSpace
(tab, vertical tab, form feed, space, no-break space, zero-width
no-break space, and the Unicode Space_Separator category) together with
the LineTerminator characters (line feed, carriage return, line
separator, paragraph separator). -/
def Quest.wsChars : List Char :=
  ['\t', '\n', '\x0b', '\x0c', '\r', '\u0020', '\u00a0',
   '\u1680', '\u2000', '\u2001', '\u2002', '\u2003', '\u2004', '\u2005',
   '\u2006', '\u2007', '\u2008', '\u2009', '\u200a', '\u2028', '\u2029',
   '\u202f', '\u205f', '\u3000', '\ufeff']

/-- The `hasOculus` test: the user agent contains one of the markers,
case-insensitively. -/
def Quest.hasOculus (ua : String) : Bool :=
  Quest.oculusMarkers.any (fun m => Quest.occursIn (Quest.lowerChars m) (Quest.lowerChars ua))

/-- One gapped alternative of the `isQuest2or3` regex: the stem, a single
whitespace character, then the digit. -/
def Quest.questGap (digit : Char) (ua : String) : Bool :=
  Quest.wsChars.any (fun w =>
    Quest.occursIn (Quest.lowerChars Quest.questWord ++ [w, digit]) (Quest.lowerChars ua))

/-- The `isQuest2or3` test: any literal or gapped alternative matches,
case-insensitively. -/
def Quest.isQuest2or3 (ua : String) : Bool :=
  Quest.quest23Literals.any
      (fun m => Quest.occursIn (Quest.lowerChars m) (Quest.lowerChars ua)) ||
    Quest.questGap '2' ua || Quest.questGap '3' ua

/-- `isMetaQuest1`: an Oculus/Quest marker is present and no Quest 2/3
pattern matches.  The function is total in the user-agent string; the
`try`/`catch` of the source only guards the `navigator` lookup, which is
this function's input here. -/
def Quest.isMetaQuest1 (ua : String) : Bool :=
  Quest.hasOculus ua && !(Quest.isQuest2or3 ua)

/-- A guarded `collectSpecificToken` call (game over, or entity already
destroyed) returns the state unchanged. -/
theorem Multi.collect_noop (e : Nat) (s : Multi.MState)
    (h : s.destroyed.contains e = true ∨ s.gameOver = true) :
    Multi.collectSpecificToken e s = s := by
  unfold Multi.collectSpecificToken
  rcases h with h | h
  · have hm : e ∈ s.destroyed := by simpa using h
    by_cases hg : s.gameOver
    · simp [hg]
    · simp [hg, hm]
  · simp [h]

/-- A successful `collectSpecificToken` (game running, entity not yet
destroyed) increments the score, recomputes the game-over flag against
the win threshold, leaves `destroyed` untouched (destruction is only
scheduled), appends the entity to the pending-destroy queue, and splices
it out of `activeTokens`. -/
theorem Multi.collect_success (e : Nat) (s : Multi.MState)
    (hg : s.gameOver = false) (hd : s.destroyed.contains e = false) :
    (Multi.collectSpecificToken e s).score = s.score + 1 ∧
    (Multi.collectSpecificToken e s).gameOver = decide (Multi.winThreshold ≤ s.score + 1) ∧
    (Multi.collectSpecificToken e s).destroyed = s.destroyed ∧
    (Multi.collectSpecificToken e s).pendingDestroy = s.pendingDestroy ++ [e] ∧
    (Multi.collectSpecificToken e s).activeTokens = s.activeTokens.erase e := by
  have hm : e ∉ s.destroyed := by simpa using hd
  unfold Multi.collectSpecificToken
  simp only [hg, hd, Bool.false_eq_true, if_false]
  split
  · rename_i h
    simp [hm, h]
  · rename_i h
    simp [hm, h]

/-- The score change of one `collectSpecificToken` call: one when the
guards pass, zero otherwise. -/
theorem Multi.collect_score (e : Nat) (s : Multi.MState) :
    (Multi.collectSpecificToken e s).score =
      s.score + (if !s.gameOver && !(s.destroyed.contains e) then 1 else 0) := by
  by_cases hg : s.gameOver
  · simp [Multi.collect_noop e s (Or.inr hg), hg]
  · by_cases hd : s.destroyed.contains e
    · have hm : e ∈ s.destroyed := by simpa using hd
      simp [Multi.collect_noop e s (Or.inl hd), hg, hm]
    · have hm : e ∉ s.destroyed := by simpa using hd
      have h := Multi.collect_success e s (by simpa using hg) (by simpa using hd)
      simp [h.1, hg, hm]

/-- The score change of one frame of `CoinCollectSystem.update`: one when
the frame finds a hit while the game is running, zero otherwise. -/
theorem Multi.update_score (p : Vec3) (pos : Nat → Vec3) (s : Multi.MState) :
    (Multi.update p pos s).score =
      s.score + (if Multi.opCollects s (Multi.MOp.frame p pos) then 1 else 0) := by
  unfold Multi.update Multi.opCollects
  by_cases hg : s.gameOver
  · simp [hg]
  · by_cases he : s.activeTokens.isEmpty
    · simp [hg, he]
    · cases h : Multi.findTarget p pos s with
      | none => simp [hg, he, h]
      | some e =>
          have hh : Multi.hits p pos s e = true := List.find?_some h
          have hd : s.destroyed.contains e = false := by
            unfold Multi.hits at hh
            simp only [Bool.and_eq_true] at hh
            simpa using hh.1
          have hs := Multi.collect_success e s (by simpa using hg) hd
          simp [hg, he, h, hs.1]

/-- The score change of one operation: one exactly when the operation
passes the collection guards. -/
theorem Multi.step_score (s : Multi.MState) (op : Multi.MOp) :
    (Multi.step s op).score = s.score + (if Multi.opCollects s op then 1 else 0) := by
  cases op with
  | collect e => simpa [Multi.step, Multi.opCollects] using Multi.collect_score e s
  | frame p pos => simpa [Multi.step] using Multi.update_score p pos s
  | spawnFires r1 r2 =>
      simp only [Multi.step, Multi.opCollects, Bool.false_eq_true, if_false, Nat.add_zero,
        Multi.createToken, Multi.spawnState]
      split
      · rfl
      · split <;> rfl
  | destroyFires =>
      simp only [Multi.step, Multi.opCollects, Bool.false_eq_true, if_false, Nat.add_zero]
      split <;> rfl

/-- A replacement-spawn task firing never changes the score, the flag, or
the destroyed set. -/
theorem Multi.spawnFires_fields (s : Multi.MState) (r1 r2 : ℚ) :
    (Multi.step s (Multi.MOp.spawnFires r1 r2)).score = s.score ∧
    (Multi.step s (Multi.MOp.spawnFires r1 r2)).gameOver = s.gameOver ∧
    (Multi.step s (Multi.MOp.spawnFires r1 r2)).destroyed = s.destroyed := by
  simp only [Multi.step, Multi.createToken, Multi.spawnState]
  split
  · exact ⟨rfl, rfl, rfl⟩
  · split
    · exact ⟨rfl, rfl, rfl⟩
    · exact ⟨rfl, rfl, rfl⟩

/-- A destroy task firing never changes the score, the flag, the
live-token list, or the identity counter. -/
theorem Multi.destroyFires_fields (s : Multi.MState) :
    (Multi.step s Multi.MOp.destroyFires).score = s.score ∧
    (Multi.step s Multi.MOp.destroyFires).gameOver = s.gameOver ∧
    (Multi.step s Multi.MOp.destroyFires).activeTokens = s.activeTokens ∧
    (Multi.step s Multi.MOp.destroyFires).nextId = s.nextId := by
  simp only [Multi.step]
  split
  · exact ⟨rfl, rfl, rfl, rfl⟩
  · exact ⟨rfl, rfl, rfl, rfl⟩

/-- Running a list of operations adds exactly the number of guard-passing
collections to the score. -/
theorem Multi.runFrom_score (ops : List Multi.MOp) :
    ∀ s : Multi.MState, (Multi.runFrom s ops).score = s.score + Multi.countFrom s ops := by
  induction ops with
  | nil => intro s; simp [Multi.runFrom, Multi.countFrom]
  | cons op rest ih =>
      intro s
      have h1 : Multi.runFrom s (op :: rest) = Multi.runFrom (Multi.step s op) rest := rfl
      have h2 : Multi.countFrom s (op :: rest) =
          (if Multi.opCollects s op then 1 else 0) + Multi.countFrom (Multi.step s op) rest := rfl
      rw [h1, h2, ih (Multi.step s op), Multi.step_score]
      omega

/-- Once the game-over flag is set, a single operation leaves the flag,
the score, the live-token list, and the identity counter unchanged. -/
theorem Multi.step_frozen (s : Multi.MState) (op : Multi.MOp) (h : s.gameOver = true) :
    (Multi.step s op).gameOver = true ∧ (Multi.step s op).score = s.score ∧
    (Multi.step s op).activeTokens = s.activeTokens ∧
    (Multi.step s op).nextId = s.nextId := by
  cases op with
  | collect e => simp [Multi.step, Multi.collect_noop e s (Or.inr h), h]
  | frame p pos => simp [Multi.step, Multi.update, h]
  | spawnFires r1 r2 =>
      by_cases hp : s.pendingSpawn = 0
      · simp [Multi.step, hp, h]
      · simp [Multi.step, hp, h]
  | destroyFires =>
      cases hpd : s.pendingDestroy with
      | nil => simp [Multi.step, hpd, h]
      | cons a rest => simp [Multi.step, hpd, h]

/-- Once the game-over flag is set, any further operation sequence leaves
the flag, the score, the live-token list, and the identity counter
unchanged. -/
theorem Multi.runFrom_frozen (ops : List Multi.MOp) :
    ∀ s : Multi.MState, s.gameOver = true →
      (Multi.runFrom s ops).gameOver = true ∧
      (Multi.runFrom s ops).score = s.score ∧
      (Multi.runFrom s ops).activeTokens = s.activeTokens ∧
      (Multi.runFrom s ops).nextId = s.nextId := by
  induction ops with
  | nil => intro s hs; exact ⟨hs, rfl, rfl, rfl⟩
  | cons op rest ih =>
      intro s hs
      have hstep := Multi.step_frozen s op hs
      have hrest := ih (Multi.step s op) hstep.1
      have hr : Multi.runFrom s (op :: rest) = Multi.runFrom (Multi.step s op) rest := rfl
      rw [hr]
      exact ⟨hrest.1, hrest.2.1.trans hstep.2.1, hrest.2.2.1.trans hstep.2.2.1,
        hrest.2.2.2.trans hstep.2.2.2⟩

/-- `collectSpecificToken` preserves the session invariant. -/
theorem Multi.inv_collect (e : Nat) (s : Multi.MState) (h : Multi.Inv s) :
    Multi.Inv (Multi.collectSpecificToken e s) := by
  obtain ⟨h1, h2⟩ := h
  by_cases hg : s.gameOver
  · rw [Multi.collect_noop e s (Or.inr hg)]
    exact ⟨h1, h2⟩
  · by_cases hd : s.destroyed.contains e
    · rw [Multi.collect_noop e s (Or.inl hd)]
      exact ⟨h1, h2⟩
    · have hgf : s.gameOver = false := by simpa using hg
      have hdf : s.destroyed.contains e = false := by simpa using hd
      have hs := Multi.collect_success e s hgf hdf
      have hlt : s.score < Multi.winThreshold := by
        rw [hgf] at h1
        by_contra hc
        simp [Nat.le_of_not_lt hc] at h1
      constructor
      · rw [hs.2.1, hs.1]
      · rw [hs.1]
        omega

/-- Every operation preserves the session invariant. -/
theorem Multi.inv_step (s : Multi.MState) (op : Multi.MOp) (h : Multi.Inv s) :
    Multi.Inv (Multi.step s op) := by
  cases op with
  | collect e => exact Multi.inv_collect e s h
  | frame p pos =>
      show Multi.Inv (Multi.update p pos s)
      unfold Multi.update
      by_cases hg : s.gameOver
      · simpa [hg] using h
      · by_cases he : s.activeTokens.isEmpty
        · simpa [hg, he] using h
        · cases hf : Multi.findTarget p pos s with
          | none => simpa [hg, he, hf] using h
          | some e => simpa [hg, he, hf] using Multi.inv_collect e s h
  | spawnFires r1 r2 =>
      obtain ⟨h1, h2⟩ := h
      have hf := Multi.spawnFires_fields s r1 r2
      constructor
      · rw [hf.2.1, hf.1]
        exact h1
      · rw [hf.1]
        exact h2
  | destroyFires =>
      obtain ⟨h1, h2⟩ := h
      have hf := Multi.destroyFires_fields s
      constructor
      · rw [hf.2.1, hf.1]
        exact h1
      · rw [hf.1]
        exact h2

/-- Running any operation list preserves the session invariant. -/
theorem Multi.runFrom_inv (ops : List Multi.MOp) :
    ∀ s : Multi.MState, Multi.Inv s → Multi.Inv (Multi.runFrom s ops) := by
  induction ops with
  | nil => intro s hs; exact hs
  | cons op rest ih => intro s hs; exact ih (Multi.step s op) (Multi.inv_step s op hs)

/-- Every reachable state satisfies the session invariant. -/
theorem Multi.inv_run (ops : List Multi.MOp) : Multi.Inv (Multi.run ops) :=
  Multi.runFrom_inv ops Multi.initState (by constructor <;> decide)

/-- `collectToken` preserves the single-token tracking invariant: either
it is a guarded no-op, or it clears `tokenExists` and `tokenEntity`
together. -/
theorem Single.invTok_collect (s : Single.SState) (h : Single.InvTok s) :
    Single.InvTok (Single.collectToken s) := by
  unfold Single.collectToken
  split
  · exact h
  · cases hte : s.tokenEntity with
    | none => simpa [hte] using h
    | some e =>
        simp only [hte]
        split
        · rfl
        · rfl

/-- Every operation of the single-token variant preserves the tracking
invariant; in particular the delayed replacement spawn sets
`tokenEntity` and `tokenExists` together. -/
theorem Single.invTok_step (s : Single.SState) (op : Single.SOp) (h : Single.InvTok s) :
    Single.InvTok (Single.step s op) := by
  cases op with
  | collect => exact Single.invTok_collect s h
  | frame p tokenPos =>
      show Single.InvTok (Single.update p tokenPos s)
      unfold Single.update
      split
      · exact h
      · split
        · exact Single.invTok_collect s h
        · exact h
  | spawnFires =>
      by_cases hp : s.pendingSpawn = 0
      · simpa [Single.step, hp] using h
      · by_cases hg : s.gameOver
        · simpa [Single.step, hp, hg] using h
        · simp [Single.step, hp, hg, Single.InvTok]

/-- `handleTokenCollected` on the current token (game running, no spawn
pending, listener list as the invariant demands) re-establishes the
pointer-variant invariant: listener, reference and flag are all
cleared together, and a replacement spawn is scheduled only in the
non-winning branch. -/
theorem ClickVar.invA_handle (e : Nat) (s : ClickVar.AState)
    (he : s.tokenEntity = some e) (hg : s.gameOver = false) (hps : s.pendingSpawn = 0)
    (h2 : s.listeners = ClickVar.listenersOf s.tokenEntity) :
    ClickVar.InvA (ClickVar.handleTokenCollected e s) := by
  have herase : s.listeners.erase e = [] := by
    rw [h2, he]
    simp [ClickVar.listenersOf]
  unfold ClickVar.handleTokenCollected
  simp only [he, herase, hps, eq_self_iff_true, if_true]
  split
  · exact ⟨rfl, rfl, by simp, by intro hc; simp at hc⟩
  · exact ⟨rfl, rfl, by simp, fun _ => ⟨rfl, hg⟩⟩

/-- Every operation of the pointer-event variant preserves its
invariant. -/
theorem ClickVar.invA_step (s : ClickVar.AState) (op : ClickVar.AOp)
    (h : ClickVar.InvA s) : ClickVar.InvA (ClickVar.step s op) := by
  obtain ⟨h1, h2, h3, h4⟩ := h
  cases op with
  | click e =>
      by_cases hm : s.listeners.contains e
      · have he : s.tokenEntity = some e := by
          cases hte : s.tokenEntity with
          | none =>
              rw [hte] at h2
              simp only [ClickVar.listenersOf] at h2
              rw [h2] at hm
              simp at hm
          | some t =>
              rw [hte] at h2
              simp only [ClickVar.listenersOf] at h2
              rw [h2] at hm
              have het : e = t := by simpa using hm
              rw [het]
        have hps : s.pendingSpawn = 0 := by
          by_cases hp1 : s.pendingSpawn = 1
          · rcases h4 hp1 with ⟨hnone, _⟩
            rw [hnone] at he
            exact absurd he (by simp)
          · omega
        show ClickVar.InvA (ClickVar.step s (ClickVar.AOp.click e))
        simp only [ClickVar.step, hm, if_true, ClickVar.onTokenClicked]
        by_cases hgo : s.gameOver
        · simp only [hgo, if_true]
          exact ⟨h1, h2, h3, h4⟩
        · have hgf : s.gameOver = false := by simpa using hgo
          simp only [hgf, Bool.false_eq_true, if_false]
          by_cases hdx : s.destroyed.contains e
          · simp only [hdx, if_true]
            exact ⟨h1, h2, h3, h4⟩
          · simp only [hdx, Bool.false_eq_true, if_false]
            exact ClickVar.invA_handle e s he hgf hps h2
      · show ClickVar.InvA (ClickVar.step s (ClickVar.AOp.click e))
        simp only [ClickVar.step, hm, Bool.false_eq_true, if_false]
        exact ⟨h1, h2, h3, h4⟩
  | spawnFires =>
      by_cases hp : s.pendingSpawn = 0
      · show ClickVar.InvA (ClickVar.step s ClickVar.AOp.spawnFires)
        simp only [ClickVar.step, hp, if_true]
        exact ⟨h1, h2, h3, h4⟩
      · have hp1 : s.pendingSpawn = 1 := by omega
        rcases h4 hp1 with ⟨hnone, hgf⟩
        have hl : s.listeners = [] := by
          rw [h2, hnone]
          rfl
        show ClickVar.InvA (ClickVar.step s ClickVar.AOp.spawnFires)
        simp only [ClickVar.step, ClickVar.createToken]
        simp [hp, hp1, hgf, hl]
        exact ⟨rfl, rfl, by simp, by intro hc; simp at hc⟩
  | destroyFires =>
      cases hpd : s.pendingDestroy with
      | nil =>
          show ClickVar.InvA (ClickVar.step s ClickVar.AOp.destroyFires)
          simp only [ClickVar.step, hpd]
          exact ⟨h1, h2, h3, h4⟩
      | cons a rest =>
          show ClickVar.InvA (ClickVar.step s ClickVar.AOp.destroyFires)
          simp only [ClickVar.step, hpd]
          exact ⟨h1, h2, h3, fun hc => h4 hc⟩

/-- Running any operation list preserves the pointer-variant invariant. -/
theorem ClickVar.runFrom_invA (ops : List ClickVar.AOp) :
    ∀ s : ClickVar.AState, ClickVar.InvA s → ClickVar.InvA (ClickVar.runFrom s ops) := by
  induction ops with
  | nil => intro s hs; exact hs
  | cons op rest ih =>
      intro s hs
      exact ih (ClickVar.step s op) (ClickVar.invA_step s op hs)

/-- The initial state of the pointer-event variant satisfies its
invariant. -/
theorem ClickVar.invA_init : ClickVar.InvA ClickVar.initState :=
  ⟨rfl, rfl, by decide, fun hc => absurd hc (by decide)⟩

/-- Every reachable state of the pointer-event variant satisfies its
invariant. -/
theorem ClickVar.invA_run (ops : List ClickVar.AOp) : ClickVar.InvA (ClickVar.run ops) :=
  ClickVar.runFrom_invA ops ClickVar.initState ClickVar.invA_init

/-- Claim C1, counterexample: in the multi-token variant, after token 0
is successfully collected (score 1, token spliced out of `activeTokens`,
its destruction still pending, `destroyed` still empty), a second
`collectSpecificToken` on the same token before the deferred destroy has
run passes the guards again: it increments the score to 2 and schedules a
second replacement spawn, so the second collect is not a no-op. -/
theorem claim_C1_counterexample :
    (Multi.step Multi.initState (Multi.MOp.collect 0)).activeTokens = [] ∧
    (Multi.step Multi.initState (Multi.MOp.collect 0)).score = 1 ∧
    (Multi.step Multi.initState (Multi.MOp.collect 0)).destroyed = [] ∧
    (Multi.step Multi.initState (Multi.MOp.collect 0)).pendingSpawn = 1 ∧
    (Multi.step (Multi.step Multi.initState (Multi.MOp.collect 0))
        (Multi.MOp.collect 0)).score = 2 ∧
    (Multi.step (Multi.step Multi.initState (Multi.MOp.collect 0))
        (Multi.MOp.collect 0)).pendingSpawn = 2 := by
  decide

/-- Claim C1, amended: a repeated collect of the same token is a
guaranteed no-op (state unchanged: no score increment, no flag change, no
scheduled spawn) once the token's deferred destruction has run, or once
the game is over; before the deferred destroy fires, only the per-frame
system path is safe (the token has left `activeTokens`), while a direct
duplicate collect does increment the score. -/
theorem claim_C1 (s : Multi.MState) (e : Nat)
    (h : s.destroyed.contains e = true ∨ s.gameOver = true) :
    Multi.collectSpecificToken e s = s :=
  Multi.collect_noop e s h

/-- Claim C1, witness: after token 0 is collected and its deferred
destroy has fired, collecting it again leaves the state unchanged. -/
theorem claim_C1_witness :
    Multi.collectSpecificToken 0 (Multi.run Multi.destroyedTrace) =
      Multi.run Multi.destroyedTrace :=
  claim_C1 (Multi.run Multi.destroyedTrace) 0 (Or.inl (by decide))

/-- Claim C2: in every state reachable with the game-over flag set, any
further operation sequence - direct collects, frame ticks, stale
replacement-spawn tasks firing, destroy tasks firing - leaves the flag
set, the score unchanged, the live-token list unchanged, and spawns no
new token (the entity counter does not advance). -/
theorem claim_C2 (ops more : List Multi.MOp) (h : (Multi.run ops).gameOver = true) :
    (Multi.runFrom (Multi.run ops) more).gameOver = true ∧
    (Multi.runFrom (Multi.run ops) more).score = (Multi.run ops).score ∧
    (Multi.runFrom (Multi.run ops) more).activeTokens = (Multi.run ops).activeTokens ∧
    (Multi.runFrom (Multi.run ops) more).nextId = (Multi.run ops).nextId :=
  Multi.runFrom_frozen more (Multi.run ops) h

/-- Claim C2, witness: a concrete run that reaches game over with a
replacement-spawn task still pending; letting that stale task and a
destroy task fire changes neither score, flag, live tokens, nor the
entity counter. -/
theorem claim_C2_witness :
    (Multi.run Multi.gameOverTrace).gameOver = true ∧
    (Multi.run Multi.gameOverTrace).pendingSpawn = 1 ∧
    ((Multi.runFrom (Multi.run Multi.gameOverTrace)
          [Multi.MOp.spawnFires 0 0, Multi.MOp.destroyFires]).gameOver = true ∧
      (Multi.runFrom (Multi.run Multi.gameOverTrace)
          [Multi.MOp.spawnFires 0 0, Multi.MOp.destroyFires]).score =
        (Multi.run Multi.gameOverTrace).score ∧
      (Multi.runFrom (Multi.run Multi.gameOverTrace)
          [Multi.MOp.spawnFires 0 0, Multi.MOp.destroyFires]).activeTokens =
        (Multi.run Multi.gameOverTrace).activeTokens ∧
      (Multi.runFrom (Multi.run Multi.gameOverTrace)
          [Multi.MOp.spawnFires 0 0, Multi.MOp.destroyFires]).nextId =
        (Multi.run Multi.gameOverTrace).nextId) :=
  ⟨by decide, by decide,
    claim_C2 Multi.gameOverTrace
      [Multi.MOp.spawnFires 0 0, Multi.MOp.destroyFires] (by decide)⟩

/-- Claim C3: starting from the initial session state, after any sequence
of controller operations the score equals the number of operations that
passed the liveness and not-game-over guards (each guard-passing
collection adds exactly one), and no operation of the controller ever
decreases the score. -/
theorem claim_C3 (ops : List Multi.MOp) :
    (Multi.run ops).score = Multi.countFrom Multi.initState ops ∧
    ∀ (s : Multi.MState) (op : Multi.MOp), s.score ≤ (Multi.step s op).score := by
  constructor
  · have h := Multi.runFrom_score ops Multi.initState
    simpa [Multi.run, Multi.initState, Multi.spawnState, Multi.emptyState] using h
  · intro s op
    rw [Multi.step_score]
    split
    · omega
    · omega

/-- Claim C4: in every reachable state with score equal to the win
threshold minus one, the game-over flag is still false, and the collect
that raises the score to the threshold sets the flag within that same
call. -/
theorem claim_C4 (ops : List Multi.MOp) (e : Nat)
    (h4 : (Multi.run ops).score = Multi.winThreshold - 1) :
    (Multi.run ops).gameOver = false ∧
    ((Multi.run ops).destroyed.contains e = false →
      (Multi.step (Multi.run ops) (Multi.MOp.collect e)).score = Multi.winThreshold ∧
      (Multi.step (Multi.run ops) (Multi.MOp.collect e)).gameOver = true) := by
  have hinv := Multi.inv_run ops
  have hgo : (Multi.run ops).gameOver = false := by
    rw [hinv.1, h4]
    decide
  refine ⟨hgo, fun hd => ?_⟩
  have hs := Multi.collect_success e (Multi.run ops) hgo hd
  have hstep : Multi.step (Multi.run ops) (Multi.MOp.collect e) =
      Multi.collectSpecificToken e (Multi.run ops) := rfl
  rw [hstep]
  constructor
  · rw [hs.1, h4]
    decide
  · rw [hs.2.1, h4]
    decide

/-- Claim C4, witness: with threshold 5, collecting four tokens in
sequence (each replacement spawn firing in between) leaves score 4 and
the flag false; collecting the fifth token raises the score to 5 and sets
the flag in that same call. -/
theorem claim_C4_witness :
    (Multi.run Multi.fourCollectTrace).score = Multi.winThreshold - 1 ∧
    (Multi.run Multi.fourCollectTrace).gameOver = false ∧
    (Multi.step (Multi.run Multi.fourCollectTrace) (Multi.MOp.collect 4)).score =
      Multi.winThreshold ∧
    (Multi.step (Multi.run Multi.fourCollectTrace) (Multi.MOp.collect 4)).gameOver =
      true := by
  refine ⟨by decide, ?_, ?_, ?_⟩
  · exact (claim_C4 Multi.fourCollectTrace 4 (by decide)).1
  · exact ((claim_C4 Multi.fourCollectTrace 4 (by decide)).2 (by decide)).1
  · exact ((claim_C4 Multi.fourCollectTrace 4 (by decide)).2 (by decide)).2

/-- Claim C5: one invocation of the per-frame collection check collects
at most one token (the score grows by at most one), and the token it
selects is a live member of the active list whose squared distance to the
player is strictly below the squared radius; for the radius-0.4 variant,
a token at squared distance 0.09 is collected and one at squared
distance 0.25 is not. -/
theorem claim_C5 (p : Vec3) (pos : Nat → Vec3) (s : Multi.MState) (e : Nat) :
    (Multi.update p pos s).score ≤ s.score + 1 ∧
    (Multi.findTarget p pos s = some e →
      e ∈ s.activeTokens ∧ s.destroyed.contains e = false ∧
      distSq (pos e) p < Multi.radiusSq) ∧
    distSq ⟨0, 0, 3/10⟩ ⟨0, 0, 0⟩ = 9/100 ∧
    Single.radiusSq = 4/25 ∧
    (Single.update ⟨0, 0, 0⟩ ⟨0, 0, 3/10⟩ Single.initState).score = 1 ∧
    distSq ⟨0, 0, 1/2⟩ ⟨0, 0, 0⟩ = 1/4 ∧
    (Single.update ⟨0, 0, 0⟩ ⟨0, 0, 1/2⟩ Single.initState).score = 0 := by
  refine ⟨?_, ?_, ?_, ?_, ?_, ?_, ?_⟩
  · rw [Multi.update_score]
    split
    · omega
    · omega
  · intro h
    unfold Multi.findTarget at h
    have hmem := List.mem_of_find?_eq_some h
    have hh : Multi.hits p pos s e = true := List.find?_some h
    unfold Multi.hits at hh
    simp only [Bool.and_eq_true] at hh
    exact ⟨hmem, by simpa using hh.1, by simpa using hh.2⟩
  · norm_num [distSq]
  · norm_num [Single.radiusSq, Single.collectRadius]
  · norm_num [Single.update, Single.collectToken, Single.initState, distSq,
      Single.radiusSq, Single.collectRadius, Single.winThreshold]
  · norm_num [distSq]
  · norm_num [Single.update, Single.initState, distSq, Single.radiusSq,
      Single.collectRadius]

/-- Claim C5, witness: from the initial multi-token state with the one
token one unit away from the player, the scan selects it, and it is a
live member of the active list within the radius. -/
theorem claim_C5_witness :
    Multi.findTarget ⟨0, 0, 0⟩ (fun _ => (⟨0, 0, 1⟩ : Vec3)) Multi.initState = some 0 ∧
    (0 ∈ Multi.initState.activeTokens ∧
      Multi.initState.destroyed.contains 0 = false ∧
      distSq ((fun _ => (⟨0, 0, 1⟩ : Vec3)) 0) ⟨0, 0, 0⟩ < Multi.radiusSq) := by
  have hft : Multi.findTarget ⟨0, 0, 0⟩ (fun _ => (⟨0, 0, 1⟩ : Vec3)) Multi.initState =
      some 0 := by
    unfold Multi.findTarget Multi.hits
    norm_num [Multi.initState, Multi.spawnState, Multi.emptyState, List.find?, distSq,
      Multi.radiusSq, Multi.radius]
  exact ⟨hft,
    (claim_C5 ⟨0, 0, 0⟩ (fun _ => (⟨0, 0, 1⟩ : Vec3)) Multi.initState 0).2.1 hft⟩

/-- Claim C6, counterexample: in the single-token variant the very first
successful `collectToken` destroys the token synchronously inside the
collect step - when the call returns, the entity is already destroyed
(and was destroyed before the score increment in the source order), so
destruction is not deferred in this variant. -/
theorem claim_C6_counterexample :
    (Single.collectToken Single.initState).score = 1 ∧
    (Single.collectToken Single.initState).destroyed = [0] ∧
    (Single.collectToken Single.initState).tokenEntity = none := by
  decide

/-- `handleTokenCollected` leaves `destroyed` untouched, appends the
entity to the pending-destroy queue, and increments the score, in both
the winning and the non-winning branch. -/
theorem ClickVar.handle_fields (e : Nat) (sa : ClickVar.AState) :
    (ClickVar.handleTokenCollected e sa).destroyed = sa.destroyed ∧
    (ClickVar.handleTokenCollected e sa).pendingDestroy = sa.pendingDestroy ++ [e] ∧
    (ClickVar.handleTokenCollected e sa).score = sa.score + 1 := by
  unfold ClickVar.handleTokenCollected
  by_cases hw : ClickVar.winThreshold ≤ sa.score + 1
  · simp [hw]
  · simp [hw]

/-- Claim C6, amended: in the two `index.js` variants
(`collectSpecificToken` and `handleTokenCollected`) destruction of the
collected token is deferred - the collect step leaves `destroyed`
unchanged and only appends a pending zero-delay destroy task, while its
own state mutations (score increment and the rest) complete - whereas
the single-token `collectToken` of the other variants destroys the token
synchronously inside the collect step. -/
theorem claim_C6 (e : Nat) (s : Multi.MState) (sa : ClickVar.AState)
    (hg : s.gameOver = false) (hd : s.destroyed.contains e = false) :
    (Multi.collectSpecificToken e s).destroyed = s.destroyed ∧
    (Multi.collectSpecificToken e s).pendingDestroy = s.pendingDestroy ++ [e] ∧
    (Multi.collectSpecificToken e s).score = s.score + 1 ∧
    (ClickVar.handleTokenCollected e sa).destroyed = sa.destroyed ∧
    (ClickVar.handleTokenCollected e sa).pendingDestroy = sa.pendingDestroy ++ [e] ∧
    (ClickVar.handleTokenCollected e sa).score = sa.score + 1 := by
  have hs := Multi.collect_success e s hg hd
  have ha := ClickVar.handle_fields e sa
  exact ⟨hs.2.2.1, hs.2.2.2.1, hs.1, ha.1, ha.2.1, ha.2.2⟩

/-- Claim C6, witness: the deferred-destroy behaviour of the `index.js`
collects, evaluated at the initial states and token 0. -/
theorem claim_C6_witness :
    (Multi.collectSpecificToken 0 Multi.initState).destroyed =
      Multi.initState.destroyed ∧
    (Multi.collectSpecificToken 0 Multi.initState).pendingDestroy =
      Multi.initState.pendingDestroy ++ [0] ∧
    (Multi.collectSpecificToken 0 Multi.initState).score =
      Multi.initState.score + 1 ∧
    (ClickVar.handleTokenCollected 0 ClickVar.initState).destroyed =
      ClickVar.initState.destroyed ∧
    (ClickVar.handleTokenCollected 0 ClickVar.initState).pendingDestroy =
      ClickVar.initState.pendingDestroy ++ [0] ∧
    (ClickVar.handleTokenCollected 0 ClickVar.initState).score =
      ClickVar.initState.score + 1 :=
  claim_C6 0 Multi.initState ClickVar.initState (by decide) (by decide)

/-- Claim C7: for random draws in the unit interval, the position
`createToken` assigns lies in the fixed spawn box - x and z in [-5, 5]
and y fixed at 0.5 - and the new token is added to the active-token
list. -/
theorem claim_C7 (r1 r2 : ℚ) (s : Multi.MState)
    (h1 : 0 ≤ r1) (h2 : r1 < 1) (h3 : 0 ≤ r2) (h4 : r2 < 1) :
    -5 ≤ (Multi.createToken r1 r2 s).2.x ∧ (Multi.createToken r1 r2 s).2.x ≤ 5 ∧
    (Multi.createToken r1 r2 s).2.y = 1/2 ∧
    -5 ≤ (Multi.createToken r1 r2 s).2.z ∧ (Multi.createToken r1 r2 s).2.z ≤ 5 ∧
    s.nextId ∈ (Multi.createToken r1 r2 s).1.activeTokens := by
  refine ⟨?_, ?_, rfl, ?_, ?_, ?_⟩
  · show -5 ≤ (r1 - 1/2) * 10
    linarith
  · show (r1 - 1/2) * 10 ≤ 5
    linarith
  · show -5 ≤ (r2 - 1/2) * 10
    linarith
  · show (r2 - 1/2) * 10 ≤ 5
    linarith
  · show s.nextId ∈ s.activeTokens ++ [s.nextId]
    simp

/-- Claim C7, witness: at both draws zero the token lands at the box
corner (-5, 0.5, -5), inside the box, and joins the active list. -/
theorem claim_C7_witness :
    -5 ≤ (Multi.createToken 0 0 Multi.initState).2.x ∧
    (Multi.createToken 0 0 Multi.initState).2.x ≤ 5 ∧
    (Multi.createToken 0 0 Multi.initState).2.y = 1/2 ∧
    -5 ≤ (Multi.createToken 0 0 Multi.initState).2.z ∧
    (Multi.createToken 0 0 Multi.initState).2.z ≤ 5 ∧
    Multi.initState.nextId ∈ (Multi.createToken 0 0 Multi.initState).1.activeTokens :=
  claim_C7 0 0 Multi.initState (by norm_num) (by norm_num) (by norm_num) (by norm_num)

/-- Claim C8: in every reachable session state the score is at most the
win threshold. -/
theorem claim_C8 (ops : List Multi.MOp) : (Multi.run ops).score ≤ Multi.winThreshold :=
  (Multi.inv_run ops).2

/-- Claim C9: in the single-token variants the invariant "tokenExists is
true exactly when tokenEntity is non-null" holds initially and is
preserved by every operation (collect, frame tick, delayed replacement
spawn); in the pointer-event variant it holds in every reachable
state. -/
theorem claim_C9 :
    Single.InvTok Single.initState ∧
    (∀ (s : Single.SState) (op : Single.SOp),
        Single.InvTok s → Single.InvTok (Single.step s op)) ∧
    ∀ ops : List ClickVar.AOp,
      (ClickVar.run ops).tokenExists = (ClickVar.run ops).tokenEntity.isSome :=
  ⟨rfl, fun s op h => Single.invTok_step s op h, fun ops => (ClickVar.invA_run ops).1⟩

/-- Claim C9, witness: the invariant after one collect from the initial
single-token state, and in a concrete pointer-event run. -/
theorem claim_C9_witness :
    Single.InvTok (Single.step Single.initState Single.SOp.collect) ∧
    (ClickVar.run [ClickVar.AOp.click 0]).tokenExists =
      (ClickVar.run [ClickVar.AOp.click 0]).tokenEntity.isSome :=
  ⟨claim_C9.2.1 Single.initState Single.SOp.collect rfl,
    claim_C9.2.2 [ClickVar.AOp.click 0]⟩

/-- Claim C10: the device heuristic is a total function of the user-agent
string; it returns false whenever no Oculus/Quest marker is present,
false whenever a Quest 2 / Quest 3 pattern matches, and it returns true
only on strings that carry a marker and match no Quest 2/3 pattern. -/
theorem claim_C10 (ua : String) :
    (Quest.hasOculus ua = false → Quest.isMetaQuest1 ua = false) ∧
    (Quest.isQuest2or3 ua = true → Quest.isMetaQuest1 ua = false) ∧
    (Quest.isMetaQuest1 ua = true →
      Quest.hasOculus ua = true ∧ Quest.isQuest2or3 ua = false) := by
  unfold Quest.isMetaQuest1
  refine ⟨?_, ?_, ?_⟩
  · intro h
    rw [h]
    rfl
  · intro h
    rw [h]
    simp
  · intro h
    simp only [Bool.and_eq_true] at h
    exact ⟨h.1, by simpa using h.2⟩

/-- Claim C10, witness: a plain browser string yields false, a Quest 2
string yields false, and an original Quest string carries a marker while
matching no Quest 2/3 pattern. -/
theorem claim_C10_witness :
    Quest.isMetaQuest1 ("Mozilla/5.0 Firefox") = false ∧
    Quest.isMetaQuest1 ("Mozilla/5.0 (Quest 2) OculusBrowser") = false ∧
    (Quest.hasOculus ("Oculus Quest") = true ∧
      Quest.isQuest2or3 ("Oculus Quest") = false) :=
  ⟨(claim_C10 ("Mozilla/5.0 Firefox")).1 (by decide),
    (claim_C10 ("Mozilla/5.0 (Quest 2) OculusBrowser")).2.1 (by decide),
    (claim_C10 ("Oculus Quest")).2.2 (by decide)⟩
